import Mathlib

/-!
Verification of the room-relay core of the DDJ-FLX6 MIDI logger repository.

The development shallowly embeds, in Lean:
  * the DOM lighting engine of src/engine/ops.js (resolveId, lightOn,
    lightOff, applyOps) over an explicit document model;
  * the client session of src/ws.js (role gating, outbound queue,
    flush-on-open, candidate-path probing with settle window, message
    parse guard);
  * the relay server of server/server.js (room registry with host and
    viewer sets plus a stored map, the connection-time setup, the origin
    allow-list gate, and the per-message dispatch).

JavaScript numbers that the embedded code only clamps and compares are
modelled as rationals; the decimal rendering done by the JS String(...)
coercion is modelled by the canonical rational rendering, which is
likewise injective, so every comparison the code performs is preserved.
-/

namespace DDJ

/-- Truthiness of a possibly-absent JS string: undefined and the empty
string are falsy, every other string is truthy. -/
def jsTruthy : Option String → Bool
  | none => false
  | some s => !(s = "")

/-- The JS expression a OR b for a possibly-absent string a with a string
default b: returns b when a is absent or empty. -/
def jsOrS : Option String → String → String
  | none, d => d
  | some s, d => if s = "" then d else s

/-- Substring occurrence test over character lists, structurally
recursive so that concrete instances reduce in the kernel. -/
def hasSubAux (pat : List Char) : List Char → Bool
  | [] => pat.isEmpty
  | c :: t => pat.isPrefixOf (c :: t) || hasSubAux pat t

/-- Substring test, modelling the JS String.includes. -/
def containsSubstr (s pat : String) : Bool :=
  hasSubAux pat.data s.data

/-- Global, leftmost, non-overlapping replacement over character lists,
with a fuel argument equal to the input length so that recursion is
structural. Models the JS global-flag regex replace of a literal
pattern. -/
def replaceAllAux (pat rep : List Char) : ℕ → List Char → List Char
  | _, [] => []
  | 0, l => l
  | Nat.succ fuel, c :: t =>
    if pat.isPrefixOf (c :: t) ∧ ¬pat.isEmpty then
      rep ++ replaceAllAux pat rep fuel ((c :: t).drop pat.length)
    else
      c :: replaceAllAux pat rep fuel t

/-- Global replacement of a literal pattern in a string. -/
def replaceAll (s pat rep : String) : String :=
  String.mk (replaceAllAux pat.data rep.data s.data.length s.data)

/-- Lower-casing a string character by character, as toLowerCase does on
the ASCII identifiers and origins this system compares. -/
def toLowerStr (s : String) : String :=
  String.mk (s.data.map Char.toLower)

/-- Insertion into a JS Set modelled as an insertion-ordered duplicate-free
list: a no-op when the element is already present. -/
def setInsert (l : List String) (x : String) : List String :=
  if x ∈ l then l else l ++ [x]

/-! ## Engine: src/engine/ops.js -/

/-- A DOM element as the ops engine observes and mutates it: the three
attributes the engine touches, the inline style color, and the four
dataset entries used as the restore cache. A value of none models an
absent attribute or dataset key. -/
structure El where
  fill : Option String
  opacity : Option String
  filter : Option String
  styleColor : Option String
  dPrevFill : Option String
  dPrevOp : Option String
  dPrevFilter : Option String
  dLit : Option String
deriving DecidableEq, Repr

/-- Rendering of a rational as the JS String coercion of a number:
injective, so all equality and truthiness observations agree. -/
def ratStr (q : ℚ) : String := toString q

/-- Minimum of two rationals, written so that concrete instances reduce
in the kernel. -/
def jsMin (a b : ℚ) : ℚ := if a ≤ b then a else b

/-- Maximum of two rationals, written so that concrete instances reduce
in the kernel. -/
def jsMax (a b : ℚ) : ℚ := if a ≤ b then b else a

/-- lightOn from src/engine/ops.js: caches the prior fill, opacity and
filter into the dataset when the cached fill is falsy, clamps the
intensity into the interval from 3/4 to 1, applies it as opacity, forces
a fill when the current fill is the string none, then sets the glow
color, filter and lit marker. -/
def lightOn (el : El) (intensity : ℚ) : El :=
  let el :=
    if !(jsTruthy el.dPrevFill) then
      { el with
        dPrevFill := some (el.fill.getD "")
        dPrevOp := some (el.opacity.getD "")
        dPrevFilter := some (el.filter.getD "") }
    else el
  let clamped : ℚ := jsMax (mkRat 3 4) (jsMin 1 intensity)
  let el := { el with opacity := some (ratStr clamped) }
  let hasFill : Bool := !(toLowerStr (el.fill.getD "") = "none")
  let el := if !hasFill then { el with fill := some "currentColor" } else el
  let el := { el with styleColor := some "rgb(0,234,255)" }
  let el := { el with filter := some "drop-shadow(0 0 6px rgba(0,234,255,0.95))" }
  { el with dLit := some "1" }

/-- lightOff from src/engine/ops.js: restores each attribute from the
dataset cache when the cache key exists (removing the attribute when the
cached value is the empty string) and clears the cache and lit marker. -/
def lightOff (el : El) : El :=
  let el := match el.dPrevFill with
    | none => el
    | some s => if s ≠ "" then { el with fill := some s } else { el with fill := none }
  let el := match el.dPrevOp with
    | none => el
    | some s => if s ≠ "" then { el with opacity := some s } else { el with opacity := none }
  let el := match el.dPrevFilter with
    | none => el
    | some s => if s ≠ "" then { el with filter := some s } else { el with filter := none }
  { el with dPrevFill := none, dPrevOp := none, dPrevFilter := none, dLit := none }

/-- An entry of the ops array handed to applyOps: a light op carries the
target id, the on flag and an optional intensity; every other op type is
ignored by the engine. -/
inductive EngineOp where
  | light (target : String) (isOn : Bool) (intensity : Option ℚ)
  | unknown
deriving DecidableEq, Repr

/-- The document: an association list from element id to element. -/
abbrev Doc := List (String × El)

/-- getElementById over the document model. -/
def getById (doc : Doc) (i : String) : Option El :=
  (doc.find? (fun p => p.1 = i)).map (fun p => p.2)

/-- The candidate id list built by resolveId: the raw id, then the
decoded variant when the id contains the _x5F_ escape, then the encoded
variant when the id contains an underscore, deduplicated in insertion
order as a JS Set does. -/
def tries (i : String) : List String :=
  let t := [i]
  let t := if containsSubstr i "_x5F_" then setInsert t (replaceAll i "_x5F_" "_") else t
  let t := if containsSubstr i "_" then setInsert t (replaceAll i "_" "_x5F_") else t
  t

/-- resolveId from src/engine/ops.js: null on a falsy id, otherwise the
first candidate id that resolves in the document. -/
def resolveId (doc : Doc) (i : String) : Option String :=
  if i = "" then none
  else (tries i).find? (fun t => (getById doc t).isSome)

/-- Replace the element stored under an id. -/
def setEl (doc : Doc) (i : String) (el : El) : Doc :=
  doc.map (fun p => if p.1 = i then (i, el) else p)

/-- The light case of the applyOps switch: a falsy target or an
unresolvable id is a no-op, otherwise the resolved element is lit or
unlit in place. -/
def applyLight (doc : Doc) (target : String) (isOn : Bool) (intensity : Option ℚ) : Doc :=
  if target = "" then doc
  else
    match resolveId doc target with
    | none => doc
    | some tid =>
      match getById doc tid with
      | none => doc
      | some el => setEl doc tid (if isOn then lightOn el (intensity.getD 1) else lightOff el)

/-- applyOps from src/engine/ops.js: folds the batch over the document,
ignoring unknown op kinds. -/
def applyOps (doc : Doc) (ops : List EngineOp) : Doc :=
  ops.foldl
    (fun d o =>
      match o with
      | EngineOp.light t b i => applyLight d t b i
      | EngineOp.unknown => d)
    doc

/-- An element with no fill, opacity or filter attribute and an empty
dataset, as a pristine SVG path without explicit styling. -/
def pristinePad : El :=
  { fill := none, opacity := none, filter := none, styleColor := none,
    dPrevFill := none, dPrevOp := none, dPrevFilter := none, dLit := none }

/-- C2: the claim states that applying the same on-light operation twice
with applyOps leaves both the rendered attributes and the cached
previous-attribute data identical to applying it once. On an element
whose attributes start out absent this fails: the first application
caches the empty string for the prior fill, the truthiness guard in
lightOn treats that cached empty string as absent, and the second
application re-runs the caching block, overwriting the cached prior
opacity and filter with the lit values, so a later off restores the lit
look. The code contradicts its own comment that the cache is written
exactly once per element session, so the claim is recorded as a code
bug; this theorem evaluates the code at the failing input. -/
theorem c2_lighton_cache_not_idempotent :
    let doc : Doc := [("pad_1", pristinePad)]
    let op : EngineOp := EngineOp.light "pad_1" true (some 1)
    let once := applyOps doc [op]
    let twice := applyOps once [op]
    twice ≠ once ∧
    (getById once "pad_1").map El.dPrevOp = some (some "") ∧
    (getById twice "pad_1").map El.dPrevOp = some (some "1") ∧
    (getById twice "pad_1").map El.dPrevFilter =
      some (some "drop-shadow(0 0 6px rgba(0,234,255,0.95))") := by
  decide

/-! ## Client session: src/ws.js -/

/-- A mapping-table entry as the relay and client handle it: the relay
stores and forwards entries without inspecting them, so an entry is
modelled by its serialized content. -/
abbrev MapEntry := String

/-- The numeric fields that looksLikeMidi and normalizeInfo read from an
inbound payload object; absent fields are none. -/
structure MidiFields where
  ch : Option ℚ := none
  channel : Option ℚ := none
  chan : Option ℚ := none
  port : Option ℚ := none
  controller : Option ℚ := none
  note : Option ℚ := none
  d1 : Option ℚ := none
  cc : Option ℚ := none
  key : Option ℚ := none
  value : Option ℚ := none
  velocity : Option ℚ := none
  d2 : Option ℚ := none
deriving DecidableEq, Repr

/-- A payload field of an inbound client frame: either an object (with
an optional type tag and midi-like numeric fields) or an array of
mapping entries (the legacy map_sync shape). -/
inductive PayloadVal where
  | pobj (typ : Option String) (f : MidiFields)
  | parr (l : List MapEntry)
deriving DecidableEq, Repr

/-- A parsed inbound client frame: the type tag, the own midi-like
fields for bare MIDI objects, an optional payload and an optional map
array. -/
structure ClientMsg where
  typ : Option String := none
  fields : MidiFields := {}
  payload : Option PayloadVal := none
  map : Option (List MapEntry) := none
deriving DecidableEq, Repr

/-- looksLikeMidi from src/ws.js: true when the type tag is one of the
known MIDI-ish tags, or when a channel-ish and a data-ish field are both
present. -/
def looksLikeMidi (typ : Option String) (f : MidiFields) : Bool :=
  let t := match typ with
    | some s => toLowerStr s
    | none => ""
  if t = "cc" || t = "noteon" || t = "noteoff" || t = "pitch" || t = "midi" ||
      t = "midi_like" || t = "info" then
    true
  else
    (f.ch.isSome || f.channel.isSome || f.chan.isSome || f.port.isSome) &&
      (f.controller.isSome || f.note.isSome || f.d1.isSome)

/-- The normalized info record produced by normalizeInfo; the rest field
carries the original fields for the default branch, which spreads the
original object. -/
structure NormInfo where
  typ : String
  ch : ℚ
  controller : Option ℚ := none
  value : Option ℚ := none
  d1 : Option ℚ := none
  d2 : Option ℚ := none
  rest : Option MidiFields := none
deriving DecidableEq, Repr

/-- The JS numeric OR for possibly-absent numbers: zero and absence are
falsy. -/
def jsOrQ : Option ℚ → Option ℚ → Option ℚ
  | some a, b => if a = 0 then b else some a
  | none, b => b

/-- normalizeInfo from src/ws.js: lower-cases the type, resolves the
channel through the falsy-OR chain with default 1, resolves note,
controller and value through nullish-coalescing chains with default 0,
and builds the shape that matches the type tag. -/
def normalizeInfo (typ : Option String) (p : MidiFields) : NormInfo :=
  let t := toLowerStr (jsOrS typ "")
  let ch := (jsOrQ p.ch (jsOrQ p.channel (jsOrQ p.chan (jsOrQ p.port (some 1))))).getD 1
  let note := p.note.getD (p.d1.getD (p.key.getD 0))
  let controller := p.controller.getD (p.d1.getD (p.cc.getD 0))
  let value := p.value.getD (p.velocity.getD (p.d2.getD 0))
  if t = "cc" then
    { typ := t, ch := ch, controller := some controller, value := some value,
      d1 := some controller, d2 := some value }
  else if t = "noteon" || t = "noteoff" then
    { typ := t, ch := ch, d1 := some note, d2 := some value, value := some value }
  else if t = "pitch" then
    { typ := t, ch := ch, value := some value }
  else
    { typ := t, ch := ch, rest := some p }

/-- An outbound client frame, as queued or written to the socket. -/
inductive ClientOut where
  | midiLike (payload : MidiFields)
  | mapSetOut (map : List MapEntry)
  | rawOut (m : ClientMsg)
  | helloOut (role : String)
  | joinOut (role room : String)
  | mapGetOut
  | pingOut
deriving DecidableEq, Repr

/-- The candidate path list probed by the client, from src/ws.js. -/
def PATH_CANDIDATES : List String := ["", "/ws", "/socket", "/socket/websocket", "/relay"]

/-- The idle-kill window from src/ws.js; zero means disabled, which is
the shipped default. -/
def IDLE_KILL_MS : ℕ := 0

/-- The mutable client session state: role and room, whether the
transport is open, the outbound queue, the remembered good endpoint, the
reconnect counter, and the timer flags. -/
structure ClientState where
  role : String
  room : String
  socketOpen : Bool
  sendQueue : List ClientOut
  chosen : Option String
  reconnectAttempts : ℕ
  closedByUs : Bool
  pingArmed : Bool
  idleArmed : Bool
deriving DecidableEq, Repr

/-- socketOrQueue from src/ws.js: writes through when the transport is
open, otherwise appends to the queue; returns true in both cases. The
result is the new state, the frames written to the socket, and the
returned boolean. -/
def socketOrQueue (s : ClientState) (p : ClientOut) : ClientState × List ClientOut × Bool :=
  if s.socketOpen then (s, [p], true)
  else ({ s with sendQueue := s.sendQueue ++ [p] }, [], true)

/-- The client send entry point: host-only, wraps the info in a
midi_like envelope and hands it to socketOrQueue. -/
def clientSend (s : ClientState) (info : MidiFields) : ClientState × List ClientOut × Bool :=
  if s.role ≠ "host" then (s, [], false)
  else socketOrQueue s (ClientOut.midiLike info)

/-- The client sendMap entry point: host-only, coerces a non-array to
the empty array and hands a map:set frame to socketOrQueue. -/
def clientSendMap (s : ClientState) (arr : Option (List MapEntry)) :
    ClientState × List ClientOut × Bool :=
  if s.role ≠ "host" then (s, [], false)
  else socketOrQueue s (ClientOut.mapSetOut (arr.getD []))

/-- The client sendRaw entry point: any role, hands the frame to
socketOrQueue. -/
def clientSendRaw (s : ClientState) (m : ClientMsg) : ClientState × List ClientOut × Bool :=
  socketOrQueue s (ClientOut.rawOut m)

/-- flushQueue from src/ws.js: when the transport is open and the queue
is non-empty, writes every queued frame in order and empties the
queue. -/
def flushQueue (s : ClientState) : ClientState × List ClientOut :=
  if !s.socketOpen then (s, [])
  else if s.sendQueue.isEmpty then (s, [])
  else ({ s with sendQueue := [] }, s.sendQueue)

/-- bumpIdleKill from src/ws.js: a no-op because the idle-kill window is
disabled by default. -/
def bumpIdleKill (s : ClientState) : ClientState :=
  if IDLE_KILL_MS = 0 then s else { s with idleArmed := true }

/-- The open listener installed by wireSocket: marks the transport open,
resets the reconnect counter, sends hello then join (and map:get for a
viewer), flushes the queue, and arms the heartbeat. -/
def onOpen (s : ClientState) : ClientState × List ClientOut :=
  let s := { s with socketOpen := true, reconnectAttempts := 0 }
  let pre := [ClientOut.helloOut s.role, ClientOut.joinOut s.role s.room] ++
    (if s.role = "viewer" then [ClientOut.mapGetOut] else [])
  let r := flushQueue s
  let s2 := bumpIdleKill { r.1 with pingArmed := true }
  (s2, pre ++ r.2)

/-- The observable effects of one run of the client message listener:
which callbacks fired with which payloads, which maps were applied, and
whether the listener closed the socket (it never does). -/
structure ClientEffects where
  opsCb : List ClientMsg := []
  infoCb : List NormInfo := []
  mapApplied : List (List MapEntry) := []
  msgCb : List ClientMsg := []
  closedSocket : Bool := false
deriving DecidableEq, Repr

/-- The body of the client message listener after a successful parse:
the ops callback for ops frames, the info extraction cascade feeding
normalizeInfo, the viewer map handling for both map:sync shapes (applyMap
ignores empty arrays), and the generic message callback last. -/
def clientDispatch (role : String) (m : ClientMsg) : ClientEffects :=
  let opsCb := if m.typ = some "ops" then [m] else []
  let infoSrc : Option (Option String × MidiFields) :=
    if m.typ = some "info" && m.payload.isSome then
      match m.payload with
      | some (PayloadVal.pobj t f) => some (t, f)
      | some (PayloadVal.parr _) => some (none, {})
      | none => none
    else if m.typ = some "midi_like" && m.payload.isSome then
      match m.payload with
      | some (PayloadVal.pobj t f) => some (t, f)
      | some (PayloadVal.parr _) => some (none, {})
      | none => none
    else if looksLikeMidi m.typ m.fields then some (m.typ, m.fields)
    else
      match m.payload with
      | some (PayloadVal.pobj t f) => if looksLikeMidi t f then some (t, f) else none
      | _ => none
  let infoCb := match infoSrc with
    | some (t, f) => [normalizeInfo t f]
    | none => []
  let mapApplied :=
    if role = "viewer" then
      if m.typ = some "map:sync" then
        match m.map with
        | some arr => if arr.isEmpty then [] else [arr]
        | none => []
      else if m.typ = some "map_sync" then
        match m.payload with
        | some (PayloadVal.parr l) => if l.isEmpty then [] else [l]
        | _ => []
      else []
    else []
  { opsCb := opsCb, infoCb := infoCb, mapApplied := mapApplied,
    msgCb := [m], closedSocket := false }

/-- The client message listener: bumps the (disabled) idle-kill timer,
then returns silently on a parse failure, otherwise dispatches. -/
def clientOnMessage (s : ClientState) (raw : Option ClientMsg) : ClientState × ClientEffects :=
  let s := bumpIdleKill s
  match raw with
  | none => (s, {})
  | some m => (s, clientDispatch s.role m)

/-! ### Candidate probing and dialing (tryOne and dial from src/ws.js) -/

/-- What a probed candidate endpoint does in the scenario under
consideration: the transport constructor throws, or the transport opens
but closes before the settle window elapses, or it stays open past the
settle window. -/
inductive CandBehavior where
  | ctorThrows
  | closesBeforeSettle
  | settles
deriving DecidableEq, Repr

/-- tryOne from src/ws.js, evaluated against the per-candidate
behaviors: a candidate that throws or closes before settling advances to
the next index, the first candidate that settles wins. Returns the
winning index (none when every candidate fails) and the list of indices
probed, in order. -/
def tryOne (bs : List CandBehavior) (index : ℕ) : Option ℕ × List ℕ :=
  if _h : index ≥ PATH_CANDIDATES.length then (none, [])
  else
    match bs.getD index CandBehavior.ctorThrows with
    | CandBehavior.ctorThrows =>
      let r := tryOne bs (index + 1)
      (r.1, index :: r.2)
    | CandBehavior.closesBeforeSettle =>
      let r := tryOne bs (index + 1)
      (r.1, index :: r.2)
    | CandBehavior.settles => (some index, [index])
termination_by PATH_CANDIDATES.length - index
decreasing_by all_goals omega

/-- The endpoint url of a candidate index: the base with the candidate
path appended, as remembered in the chosen slot. -/
def candidateUrl (base : String) (i : ℕ) : String :=
  base ++ PATH_CANDIDATES.getD i ""

/-- What one call of dial did: reused the cached endpoint, or probed and
won with some candidate, or exhausted the candidates and scheduled
backoff. Carries the probed indices. -/
inductive DialOutcome where
  | cachedDial (url : String)
  | probedWin (url : String) (probed : List ℕ)
  | backoff (probed : List ℕ)
deriving DecidableEq, Repr

/-- dial from src/ws.js: reuses the remembered good endpoint when one is
cached (probing nothing), otherwise probes the candidates from index 0
and caches the winner. Returns the new chosen slot and the outcome. -/
def dial (base : String) (chosen : Option String) (bs : List CandBehavior) :
    Option String × DialOutcome :=
  match chosen with
  | some u => (some u, DialOutcome.cachedDial u)
  | none =>
    let r := tryOne bs 0
    match r.1 with
    | some i => (some (candidateUrl base i), DialOutcome.probedWin (candidateUrl base i) r.2)
    | none => (none, DialOutcome.backoff r.2)

/-- Characterization of tryOne below the first settling candidate: when
index i is the first candidate that settles, probing from any index k at
or below i wins at i after probing exactly the indices from k to i. -/
theorem tryOne_first_settler (bs : List CandBehavior) (i : ℕ)
    (hi : i < PATH_CANDIDATES.length)
    (hsettle : bs.getD i CandBehavior.ctorThrows = CandBehavior.settles)
    (hbefore : ∀ j, j < i → bs.getD j CandBehavior.ctorThrows ≠ CandBehavior.settles) :
    ∀ n k, k ≤ i → i - k = n → tryOne bs k = (some i, List.range' k (i + 1 - k)) := by
  intro n
  induction n with
  | zero =>
    intro k hk h0
    have hki : k = i := by omega
    subst hki
    have hlt : ¬ k ≥ PATH_CANDIDATES.length := by omega
    rw [tryOne]
    simp only [hsettle]
    rw [dif_neg hlt]
    have h1 : k + 1 - k = 1 := by omega
    rw [h1, List.range'_one]
  | succ n ih =>
    intro k hk hn
    have hklt : k < i := by omega
    have hne := hbefore k hklt
    have hrec := ih (k + 1) (by omega) (by omega)
    have hlt : ¬ k ≥ PATH_CANDIDATES.length := by omega
    rw [tryOne]
    rw [dif_neg hlt]
    have hrange : List.range' k (i + 1 - k) = k :: List.range' (k + 1) (i + 1 - (k + 1)) := by
      have h2 : i + 1 - k = (i + 1 - (k + 1)) + 1 := by omega
      rw [h2, List.range'_succ]
    cases hb : bs.getD k CandBehavior.ctorThrows with
    | ctorThrows => simp only [hrec, hrange]
    | closesBeforeSettle => simp only [hrec, hrange]
    | settles => exact absurd hb hne

/-- C4: probing the candidate list in order, a candidate whose transport
closes before the settle window is skipped and the next candidate is
tried; the first candidate that stays open past the settle window is
cached as the chosen endpoint, and every later dial with that cache
set dials the cached endpoint directly and probes no candidate at
all. -/
theorem c4_settle_probe_then_cached (base : String) (bs : List CandBehavior) (i : ℕ)
    (hi : i < PATH_CANDIDATES.length)
    (hsettle : bs.getD i CandBehavior.ctorThrows = CandBehavior.settles)
    (hbefore : ∀ j, j < i → bs.getD j CandBehavior.ctorThrows ≠ CandBehavior.settles) :
    dial base none bs =
      (some (candidateUrl base i),
        DialOutcome.probedWin (candidateUrl base i) (List.range (i + 1))) ∧
    ∀ bs2 : List CandBehavior,
      dial base (some (candidateUrl base i)) bs2 =
        (some (candidateUrl base i), DialOutcome.cachedDial (candidateUrl base i)) := by
  constructor
  · have h0 := tryOne_first_settler bs i hi hsettle hbefore i 0 (by omega) (by omega)
    have hr : List.range' 0 (i + 1 - 0) = List.range (i + 1) := by
      rw [Nat.sub_zero, List.range_eq_range']
    rw [hr] at h0
    simp [dial, h0]
  · intro bs2
    rfl

/-- Witness for C4 at the scenario of the spec: the first candidate
opens but closes inside the settle window, the second settles; the dial
probes indices 0 and 1, caches the second candidate path, and a
reconnect with the cache set re-probes nothing. -/
theorem c4_witness :
    dial "ws://h:8787" none
        [CandBehavior.closesBeforeSettle, CandBehavior.settles,
          CandBehavior.ctorThrows, CandBehavior.ctorThrows, CandBehavior.ctorThrows] =
      (some (candidateUrl "ws://h:8787" 1),
        DialOutcome.probedWin (candidateUrl "ws://h:8787" 1) (List.range 2)) ∧
    dial "ws://h:8787" (some (candidateUrl "ws://h:8787" 1))
        [CandBehavior.ctorThrows, CandBehavior.ctorThrows, CandBehavior.ctorThrows,
          CandBehavior.ctorThrows, CandBehavior.ctorThrows] =
      (some (candidateUrl "ws://h:8787" 1), DialOutcome.cachedDial (candidateUrl "ws://h:8787" 1)) := by
  have h := c4_settle_probe_then_cached "ws://h:8787"
    [CandBehavior.closesBeforeSettle, CandBehavior.settles,
      CandBehavior.ctorThrows, CandBehavior.ctorThrows, CandBehavior.ctorThrows] 1
    (by decide) (by decide)
    (by intro j hj; have hj0 : j = 0 := by omega
        subst hj0; decide)
  exact ⟨h.1, h.2 _⟩

/-- A submission through one of the three public client send entry
points. -/
inductive Submission where
  | subSend (info : MidiFields)
  | subSendMap (arr : Option (List MapEntry))
  | subSendRaw (m : ClientMsg)
deriving DecidableEq, Repr

/-- The frame a submission turns into on a host session. -/
def encodeSub : Submission → ClientOut
  | Submission.subSend info => ClientOut.midiLike info
  | Submission.subSendMap arr => ClientOut.mapSetOut (arr.getD [])
  | Submission.subSendRaw m => ClientOut.rawOut m

/-- Dispatch one submission to the matching client entry point. -/
def submitOne (s : ClientState) : Submission → ClientState × List ClientOut × Bool
  | Submission.subSend i => clientSend s i
  | Submission.subSendMap a => clientSendMap s a
  | Submission.subSendRaw m => clientSendRaw s m

/-- Run a list of submissions in order, collecting the frames written to
the socket and the returned booleans. -/
def runSubs (s : ClientState) : List Submission → ClientState × List ClientOut × List Bool
  | [] => (s, [], [])
  | sub :: rest =>
    let r := submitOne s sub
    let r2 := runSubs r.1 rest
    (r2.1, r.2.1 ++ r2.2.1, r.2.2 :: r2.2.2)

/-- On a host session with the transport not open, a run of submissions
writes nothing to the socket, returns true for every submission, and
appends exactly the encoded frames to the queue in submission order,
leaving every other state component unchanged. -/
theorem runSubs_closed (subs : List Submission) (s : ClientState)
    (hrole : s.role = "host") (hclosed : s.socketOpen = false) :
    runSubs s subs =
      ({ s with sendQueue := s.sendQueue ++ subs.map encodeSub }, [],
        subs.map (fun _ => true)) := by
  induction subs generalizing s with
  | nil => simp [runSubs]
  | cons sub rest ih =>
    have hstep : submitOne s sub =
        ({ s with sendQueue := s.sendQueue ++ [encodeSub sub] }, [], true) := by
      cases sub with
      | subSend i =>
        simp [submitOne, clientSend, hrole, socketOrQueue, hclosed, encodeSub]
      | subSendMap a =>
        simp [submitOne, clientSendMap, hrole, socketOrQueue, hclosed, encodeSub]
      | subSendRaw m =>
        simp [submitOne, clientSendRaw, socketOrQueue, hclosed, encodeSub]
    have hih := ih { s with sendQueue := s.sendQueue ++ [encodeSub sub] } hrole hclosed
    simp [runSubs, hstep, hih]

/-- The open listener always transmits the hello and join preamble (plus
map:get for a viewer) followed by the queued frames in order, and leaves
the queue empty. -/
theorem onOpen_flushes (s : ClientState) :
    (onOpen s).2 =
      ([ClientOut.helloOut s.role, ClientOut.joinOut s.role s.room] ++
        (if s.role = "viewer" then [ClientOut.mapGetOut] else [])) ++ s.sendQueue ∧
    (onOpen s).1.sendQueue = [] := by
  by_cases hq : s.sendQueue = []
  · constructor <;> simp [onOpen, flushQueue, bumpIdleKill, IDLE_KILL_MS, hq]
  · constructor <;>
      simp [onOpen, flushQueue, bumpIdleKill, IDLE_KILL_MS, List.isEmpty_iff, hq]

/-- C5: on a host session whose transport is not open, every frame
submitted through send, sendMap or sendRaw is accepted (true is
returned), nothing is written to the socket, and the frames are appended
to the queue in submission order; the next successful open transmits the
hello and join preamble followed by every queued frame in submission
order, after which the queue is empty. -/
theorem c5_closed_sends_queue_fifo (s : ClientState) (subs : List Submission)
    (hrole : s.role = "host") (hclosed : s.socketOpen = false) :
    (runSubs s subs).2.2 = subs.map (fun _ => true) ∧
    (runSubs s subs).2.1 = [] ∧
    (runSubs s subs).1.sendQueue = s.sendQueue ++ subs.map encodeSub ∧
    (onOpen (runSubs s subs).1).2 =
      [ClientOut.helloOut "host", ClientOut.joinOut "host" s.room] ++
        (s.sendQueue ++ subs.map encodeSub) ∧
    (onOpen (runSubs s subs).1).1.sendQueue = [] := by
  have hr := runSubs_closed subs s hrole hclosed
  have hflush := onOpen_flushes (runSubs s subs).1
  rw [hr]
  rw [hr] at hflush
  refine ⟨rfl, rfl, rfl, ?_, hflush.2⟩
  rw [hflush.1]
  simp [hrole]

/-- Witness for C5: a host session with a closed transport accepts one
frame from each entry point, queues them in order, and the next open
flushes them after the handshake preamble. -/
theorem c5_witness :
    (runSubs
        { role := "host", room := "default", socketOpen := false, sendQueue := [],
          chosen := none, reconnectAttempts := 0, closedByUs := false,
          pingArmed := false, idleArmed := false }
        [Submission.subSend {}, Submission.subSendMap (some ["e1"]),
          Submission.subSendRaw { typ := some "ping" }]).2.2 = [true, true, true] ∧
    (onOpen (runSubs
        { role := "host", room := "default", socketOpen := false, sendQueue := [],
          chosen := none, reconnectAttempts := 0, closedByUs := false,
          pingArmed := false, idleArmed := false }
        [Submission.subSend {}, Submission.subSendMap (some ["e1"]),
          Submission.subSendRaw { typ := some "ping" }]).1).2 =
      [ClientOut.helloOut "host", ClientOut.joinOut "host" "default",
        ClientOut.midiLike {}, ClientOut.mapSetOut ["e1"],
        ClientOut.rawOut { typ := some "ping" }] := by
  have h := c5_closed_sends_queue_fifo
    { role := "host", room := "default", socketOpen := false, sendQueue := [],
      chosen := none, reconnectAttempts := 0, closedByUs := false,
      pingArmed := false, idleArmed := false }
    [Submission.subSend {}, Submission.subSendMap (some ["e1"]),
      Submission.subSendRaw { typ := some "ping" }] rfl rfl
  exact ⟨h.1, h.2.2.2.1⟩

/-- C9: on a viewer session the public send and sendMap entry points
return false and neither write a frame to the socket nor queue one; the
session state is unchanged. -/
theorem c9_viewer_send_rejected (s : ClientState) (info : MidiFields)
    (arr : Option (List MapEntry)) (hrole : s.role = "viewer") :
    clientSend s info = (s, [], false) ∧ clientSendMap s arr = (s, [], false) := by
  constructor <;> simp [clientSend, clientSendMap, hrole]

/-- Witness for C9 at a concrete viewer session. -/
theorem c9_witness :
    clientSend
        { role := "viewer", room := "default", socketOpen := true, sendQueue := [],
          chosen := none, reconnectAttempts := 0, closedByUs := false,
          pingArmed := false, idleArmed := false } {} =
      ({ role := "viewer", room := "default", socketOpen := true, sendQueue := [],
          chosen := none, reconnectAttempts := 0, closedByUs := false,
          pingArmed := false, idleArmed := false }, [], false) := by
  exact (c9_viewer_send_rejected _ {} none rfl).1

/-! ## Relay server: server/server.js -/

/-- A parsed inbound server frame: the type tag and the fields the
dispatch reads. The ops and snapshot fields occur in host operation
batches, which the server relays without inspecting. -/
structure RawMsg where
  typ : String
  role : Option String := none
  room : Option String := none
  map : Option (List MapEntry) := none
  id : Option String := none
  ops : Option (List EngineOp) := none
  snapshot : Option Bool := none
deriving DecidableEq, Repr

/-- An outbound server frame. The opsFrame, probeSummary and mapEmpty
kinds belong to the wire protocol of the surrounding system; whether
this server ever emits them is settled by the theorems below. -/
inductive Frame where
  | hello
  | presence (room : String) (hosts viewers : ℕ)
  | mapSync (map : List MapEntry) (room : String)
  | mapAck (room : String) (viewers : ℕ)
  | info (payload : RawMsg) (room : String)
  | midi (m : RawMsg) (room : String)
  | opsFrame (snapshot : Bool) (ops : List EngineOp)
  | probeSummary (id : String) (count totalViewers : ℕ)
  | mapEmpty
deriving DecidableEq, Repr

/-- One server-side connection: its current role and room and whether
its socket is open. -/
structure Conn where
  role : String
  room : String
  isOpen : Bool
deriving DecidableEq, Repr

/-- One room: the host and viewer membership sets (insertion-ordered,
duplicate-free lists of connection ids) and the last stored map. -/
structure Room where
  hosts : List ℕ
  viewers : List ℕ
  lastMap : Option (List MapEntry)
deriving DecidableEq, Repr

/-- A room before any member or map: both sets empty, no map. -/
def emptyRoom : Room := { hosts := [], viewers := [], lastMap := none }

/-- The whole relay state: the connection table and the room registry,
both insertion-ordered. -/
structure ServerState where
  conns : List (ℕ × Conn)
  rooms : List (String × Room)
deriving DecidableEq, Repr

/-- Look up a connection by id. -/
def lookupConn (st : ServerState) (cid : ℕ) : Option Conn :=
  (st.conns.find? (fun p => p.1 = cid)).map (fun p => p.2)

/-- Replace the record of a connection id. -/
def updateConn (st : ServerState) (cid : ℕ) (c : Conn) : ServerState :=
  { st with conns := st.conns.map (fun p => if p.1 = cid then (cid, c) else p) }

/-- Look up a room by name. -/
def findRoom (rooms : List (String × Room)) (name : String) : Option Room :=
  (rooms.find? (fun p => p.1 = name)).map (fun p => p.2)

/-- getRoom from server/server.js: creates the room on first reference;
returns the (possibly extended) registry together with the room. -/
def getRoomPair (rooms : List (String × Room)) (name : String) :
    List (String × Room) × Room :=
  match findRoom rooms name with
  | some r => (rooms, r)
  | none => (rooms ++ [(name, emptyRoom)], emptyRoom)

/-- Apply an update to the room stored under a name. -/
def setRoomUpd (rooms : List (String × Room)) (name : String) (f : Room → Room) :
    List (String × Room) :=
  rooms.map (fun p => if p.1 = name then (p.1, f p.2) else p)

/-- Insertion into a JS Set of connection ids. -/
def natSetAdd (l : List ℕ) (x : ℕ) : List ℕ :=
  if x ∈ l then l else l ++ [x]

/-- Deletion from a JS Set of connection ids. -/
def natSetDel (l : List ℕ) (x : ℕ) : List ℕ :=
  l.filter (fun y => y ≠ x)

/-- Whether the socket of a connection id is open. -/
def connIsOpen (st : ServerState) (cid : ℕ) : Bool :=
  match lookupConn st cid with
  | some c => c.isOpen
  | none => false

/-- The send helper of server/server.js: delivers the frame only when
the socket of the target is open. -/
def sendTo (st : ServerState) (cid : ℕ) (f : Frame) : List (ℕ × Frame) :=
  if connIsOpen st cid then [(cid, f)] else []

/-- broadcastPresence from server/server.js: sends the current host and
viewer counts of a room to every open member, hosts first. -/
def broadcastPresence (st : ServerState) (roomName : String) :
    ServerState × List (ℕ × Frame) :=
  let g := getRoomPair st.rooms roomName
  let st1 := { st with rooms := g.1 }
  let r := g.2
  (st1, ((r.hosts ++ r.viewers).map
    (fun sid => sendTo st1 sid (Frame.presence roomName r.hosts.length r.viewers.length))).flatten)

/-- broadcastToViewers from server/server.js: wraps the payload in an
info envelope and sends it to every open viewer connection of the room
except the given sender, in connection order. -/
def broadcastToViewers (st : ServerState) (roomName : String) (payload : RawMsg)
    (except : Option ℕ) : List (ℕ × Frame) :=
  (st.conns.filter (fun p =>
      !decide (some p.1 = except) && p.2.isOpen && decide (p.2.room = roomName) &&
        decide (p.2.role = "viewer"))).map
    (fun p => (p.1, Frame.info payload roomName))

/-- The room a join message moves the sender into: the message room,
else the current room, else the default, skipping empty strings as JS
truthiness does. -/
def joinNextRoom (ws : Conn) (m : RawMsg) : String :=
  jsOrS m.room (jsOrS (some ws.room) "default")

/-- The room-registry manipulation of the join handler: ensure the old
room exists, delete the sender from both of its sets, ensure the target
room exists, and insert the sender into the set matching the new
role. -/
def joinMoveRooms (rooms : List (String × Room)) (cid : ℕ) (fromRoom toRoom roleNew : String) :
    List (String × Room) :=
  let rooms1 := (getRoomPair rooms fromRoom).1
  let rooms2 := setRoomUpd rooms1 fromRoom (fun r =>
    { r with hosts := natSetDel r.hosts cid, viewers := natSetDel r.viewers cid })
  let rooms3 := (getRoomPair rooms2 toRoom).1
  setRoomUpd rooms3 toRoom (fun r =>
    if roleNew = "host" then { r with hosts := natSetAdd r.hosts cid }
    else { r with viewers := natSetAdd r.viewers cid })

/-- The message handler of server/server.js for one inbound frame of one
connection. A parse failure or falsy parse result is the none case and
returns immediately. The branches follow the source dispatch in order:
hello with a role updates the role; join moves the connection between
room sets, sends a presence snapshot, broadcasts presence and replays a
non-empty stored map; ping is ignored; map:set from a host with an array
stores the map, broadcasts it (info-wrapped) to the other viewers of the
room and acks the host with the viewer count; map:get replays a
non-empty stored map to the requester; midi relays the frame to every
other open member of the room; anything else from a host is relayed
info-wrapped to the viewers of the room; anything else from a non-host
is ignored. -/
def handleMessage (st : ServerState) (cid : ℕ) (raw : Option RawMsg) :
    ServerState × List (ℕ × Frame) :=
  match raw with
  | none => (st, [])
  | some m =>
    match lookupConn st cid with
    | none => (st, [])
    | some ws =>
      if m.typ = "hello" ∧ jsTruthy m.role then
        (updateConn st cid { ws with role := toLowerStr (m.role.getD "") }, [])
      else if m.typ = "join" then
        let nextRole := if jsTruthy m.role then toLowerStr (m.role.getD "") else ws.role
        let nextRoom := joinNextRoom ws m
        let ws2 : Conn := { role := nextRole, room := nextRoom, isOpen := ws.isOpen }
        let st3 : ServerState :=
          { conns := (updateConn st cid ws2).conns,
            rooms := joinMoveRooms st.rooms cid ws.room nextRoom nextRole }
        let r := (getRoomPair st3.rooms nextRoom).2
        let out1 := sendTo st3 cid (Frame.presence nextRoom r.hosts.length r.viewers.length)
        let bp := broadcastPresence st3 nextRoom
        let out3 := match r.lastMap with
          | some l => if 0 < l.length then sendTo st3 cid (Frame.mapSync l nextRoom) else []
          | none => []
        (bp.1, out1 ++ bp.2 ++ out3)
      else if m.typ = "ping" then (st, [])
      else if ws.role = "host" ∧ m.typ = "map:set" ∧ m.map.isSome then
        let arr := m.map.getD []
        let rooms1 := (getRoomPair st.rooms ws.room).1
        let rooms2 := setRoomUpd rooms1 ws.room (fun r => { r with lastMap := some arr })
        let st2 := { st with rooms := rooms2 }
        let r := (getRoomPair st2.rooms ws.room).2
        let payload : RawMsg := { typ := "map:sync", map := some arr, room := some ws.room }
        let out1 := broadcastToViewers st2 ws.room payload (some cid)
        let out2 := sendTo st2 cid (Frame.mapAck ws.room r.viewers.length)
        (st2, out1 ++ out2)
      else if m.typ = "map:get" ∧ ws.room ≠ "" then
        let g := getRoomPair st.rooms ws.room
        let st2 := { st with rooms := g.1 }
        match g.2.lastMap with
        | some l =>
          if 0 < l.length then (st2, sendTo st2 cid (Frame.mapSync l ws.room))
          else (st2, [])
        | none => (st2, [])
      else if m.typ = "midi" ∧ ws.room ≠ "" then
        let g := getRoomPair st.rooms ws.room
        let st2 := { st with rooms := g.1 }
        let targets := g.2.hosts ++ g.2.viewers
        (st2, (targets.filter (fun sid => decide (sid ≠ cid) && connIsOpen st2 sid)).map
          (fun sid => (sid, Frame.midi m ws.room)))
      else if ws.role = "host" then
        (st, broadcastToViewers st ws.room m (some cid))
      else (st, [])

/-- The connection handler of server/server.js after the origin gate:
resolves role and room from the query (viewer and default on falsy
values), registers the open connection, sends the hello frame, inserts
the connection into the room set matching its role, sends a presence
snapshot, replays a non-empty stored map to a viewer, and broadcasts
presence to the room. -/
def handleConnection (st : ServerState) (cid : ℕ) (qRole qRoom : Option String) :
    ServerState × List (ℕ × Frame) :=
  let role := toLowerStr (jsOrS qRole "viewer")
  let room := jsOrS qRoom "default"
  let c : Conn := { role := role, room := room, isOpen := true }
  let st1 := { st with conns := st.conns ++ [(cid, c)] }
  let out0 := sendTo st1 cid Frame.hello
  let rooms1 := (getRoomPair st1.rooms room).1
  let rooms2 := setRoomUpd rooms1 room (fun r =>
    if role = "host" then { r with hosts := natSetAdd r.hosts cid }
    else { r with viewers := natSetAdd r.viewers cid })
  let st2 := { st1 with rooms := rooms2 }
  let r := (getRoomPair st2.rooms room).2
  let out1 := sendTo st2 cid (Frame.presence room r.hosts.length r.viewers.length)
  let out2 :=
    if role = "viewer" then
      match r.lastMap with
      | some l => if 0 < l.length then sendTo st2 cid (Frame.mapSync l room) else []
      | none => []
    else []
  let bp := broadcastPresence st2 room
  (bp.1, out0 ++ out1 ++ out2 ++ bp.2)

/-! ### Origin allow-list gate -/

/-- Splitting a string at commas, as the JS String.split with a comma
separator. -/
def splitCommaAux : List Char → List Char → List String
  | [], acc => [String.mk acc.reverse]
  | c :: t, acc =>
    if c = ',' then String.mk acc.reverse :: splitCommaAux t []
    else splitCommaAux t (c :: acc)

/-- String.split at commas. -/
def splitComma (s : String) : List String :=
  splitCommaAux s.data []

/-- Whitespace trimming as the JS String.trim on the ASCII whitespace
that occurs in environment values. -/
def jsTrim (s : String) : String :=
  let ws := fun c : Char => c = ' ' || c = '\t' || c = '\n' || c = '\r'
  String.mk (((s.data.dropWhile ws).reverse.dropWhile ws).reverse)

/-- The environment configuration the origin gate reads. -/
structure EnvConfig where
  allowedOrigin : Option String := none
  allowedOrigins : Option String := none
  nodeEnv : Option String := none
deriving DecidableEq, Repr

/-- The origins hard-coded into the allow-list in server/server.js. -/
def HARDCODED_ALLOWED : List String :=
  ["https://www.setsoutofcontext.com", "https://setsoutofcontext.com"]

/-- SINGLE_ALLOWED from server/server.js: the trimmed single-origin
environment value. -/
def SINGLE_ALLOWED (cfg : EnvConfig) : Option String :=
  cfg.allowedOrigin.map jsTrim

/-- MULTI_ALLOWED from server/server.js: the comma-separated origins
environment value, split, trimmed and with empties dropped. -/
def MULTI_ALLOWED (cfg : EnvConfig) : List String :=
  ((splitComma (cfg.allowedOrigins.getD "")).map jsTrim).filter (fun s => s ≠ "")

/-- HAS_ALLOWLIST from server/server.js: true when any of the single
value, the multi list or the hard-coded list is non-empty. -/
def HAS_ALLOWLIST (cfg : EnvConfig) : Bool :=
  jsTruthy (SINGLE_ALLOWED cfg) || decide (0 < (MULTI_ALLOWED cfg).length) ||
    decide (0 < HARDCODED_ALLOWED.length)

/-- ALLOWED_ORIGINS from server/server.js: the union of the truthy
single value, the multi list and the hard-coded list (membership is all
the gate observes of the JS Set). -/
def ALLOWED_ORIGINS (cfg : EnvConfig) : List String :=
  (if jsTruthy (SINGLE_ALLOWED cfg) then [(SINGLE_ALLOWED cfg).getD ""] else []) ++
    MULTI_ALLOWED cfg ++ HARDCODED_ALLOWED

/-- The decision of the connection-time origin gate: closed during the
handshake with close code 1008, or allowed to proceed. -/
inductive Gate where
  | rejected1008
  | proceed
deriving DecidableEq, Repr

/-- The origin gate at the top of the connection handler: with an
allow-list (which always exists because of the hard-coded entries) the
origin header, defaulted to the empty string, must be in the list;
the legacy production branch is retained from the source although the
first branch always fires. -/
def connectionGate (cfg : EnvConfig) (origin : Option String) : Gate :=
  if HAS_ALLOWLIST cfg then
    if (origin.getD "") ∈ ALLOWED_ORIGINS cfg then Gate.proceed else Gate.rejected1008
  else if cfg.nodeEnv = some "production" ∧ jsTruthy cfg.allowedOrigin then
    if origin = cfg.allowedOrigin then Gate.proceed else Gate.rejected1008
  else Gate.proceed

/-- The whole connection path: the gate first; a rejected connection is
closed before the message handler is installed, changing no state and
receiving no frame; an accepted one runs the connection handler. The
boolean reports acceptance. -/
def wsConnection (cfg : EnvConfig) (origin : Option String) (st : ServerState) (cid : ℕ)
    (qRole qRoom : Option String) : ServerState × List (ℕ × Frame) × Bool :=
  match connectionGate cfg origin with
  | Gate.rejected1008 => (st, [], false)
  | Gate.proceed =>
    let r := handleConnection st cid qRole qRoom
    (r.1, r.2, true)

/-! ### Frame-kind observations and structural lemmas -/

/-- Whether a frame is an ops frame (the snapshot carrier of the wire
protocol). -/
def isOpsF : Frame → Bool
  | Frame.opsFrame _ _ => true
  | _ => false

/-- Whether a frame is a probe summary. -/
def isProbeSummaryF : Frame → Bool
  | Frame.probeSummary _ _ _ => true
  | _ => false

/-- The frame kinds this server can actually emit: everything except ops
frames, probe summaries and map:empty. -/
def kindOk : Frame → Bool
  | Frame.opsFrame _ _ => false
  | Frame.probeSummary _ _ _ => false
  | Frame.mapEmpty => false
  | _ => true

/-- A found first match survives appending on the right. -/
theorem find?_append_some {α : Type} (p : α → Bool) (l₁ l₂ : List α) (a : α)
    (h : l₁.find? p = some a) : (l₁ ++ l₂).find? p = some a := by
  induction l₁ with
  | nil => simp [List.find?] at h
  | cons hd tl ih =>
    by_cases hp : p hd
    · rw [List.find?_cons_of_pos _ hp] at h
      rw [List.cons_append, List.find?_cons_of_pos _ hp]
      exact h
    · rw [List.find?_cons_of_neg _ hp] at h
      rw [List.cons_append, List.find?_cons_of_neg _ hp]
      exact ih h

/-- getRoom on an existing room returns the registry unchanged together
with the stored room. -/
theorem getRoomPair_of_found {rooms : List (String × Room)} {n : String} {r : Room}
    (h : findRoom rooms n = some r) : getRoomPair rooms n = (rooms, r) := by
  unfold getRoomPair
  rw [h]

/-- A room that exists is still found after getRoom on any name. -/
theorem findRoom_getRoomPair_of_found {rooms : List (String × Room)} {n₂ : String}
    {r : Room} (n₁ : String) (h : findRoom rooms n₂ = some r) :
    findRoom (getRoomPair rooms n₁).1 n₂ = some r := by
  unfold getRoomPair
  cases hf : findRoom rooms n₁ with
  | some _ => simpa using h
  | none =>
    unfold findRoom at h ⊢
    cases hfind : rooms.find? (fun p => p.1 = n₂) with
    | none => rw [hfind] at h; simp at h
    | some pr =>
      rw [hfind] at h
      rw [find?_append_some _ _ _ _ hfind]
      exact h

/-- findRoom at a matching head. -/
theorem findRoom_cons_self (hd : String × Room) (tl : List (String × Room)) (n : String)
    (h : hd.1 = n) : findRoom (hd :: tl) n = some hd.2 := by
  simp only [findRoom]
  rw [List.find?_cons_of_pos _ (by simpa using h)]
  rfl

/-- findRoom past a non-matching head. -/
theorem findRoom_cons_ne (hd : String × Room) (tl : List (String × Room)) (n : String)
    (h : ¬hd.1 = n) : findRoom (hd :: tl) n = findRoom tl n := by
  simp only [findRoom]
  rw [List.find?_cons_of_neg _ (by simpa using h)]

/-- setRoomUpd unfolded one step. -/
theorem setRoomUpd_cons (hd : String × Room) (tl : List (String × Room)) (n₁ : String)
    (f : Room → Room) :
    setRoomUpd (hd :: tl) n₁ f =
      (if hd.1 = n₁ then (hd.1, f hd.2) else hd) :: setRoomUpd tl n₁ f := rfl

/-- How a room update changes what findRoom sees: the updated room under
the updated name, any other name untouched. -/
theorem findRoom_setRoomUpd (rooms : List (String × Room)) (n₁ : String) (f : Room → Room)
    (n₂ : String) :
    findRoom (setRoomUpd rooms n₁ f) n₂ =
      if n₂ = n₁ then (findRoom rooms n₁).map f else findRoom rooms n₂ := by
  induction rooms with
  | nil => by_cases h : n₂ = n₁ <;> simp [setRoomUpd, findRoom, h]
  | cons hd tl ih =>
    rw [setRoomUpd_cons]
    by_cases ha1 : hd.1 = n₁
    · rw [if_pos ha1]
      by_cases ha2 : hd.1 = n₂
      · have hn : n₂ = n₁ := by rw [← ha2, ha1]
        rw [if_pos hn, findRoom_cons_self (hd.1, f hd.2) _ n₂ ha2,
          findRoom_cons_self hd tl n₁ ha1]
        rfl
      · have hn : ¬n₂ = n₁ := fun hc => ha2 (ha1.trans hc.symm)
        rw [if_neg hn, findRoom_cons_ne (hd.1, f hd.2) _ n₂ ha2,
          findRoom_cons_ne hd tl n₂ ha2, ih, if_neg hn]
    · rw [if_neg ha1]
      by_cases ha2 : hd.1 = n₂
      · have hn : ¬n₂ = n₁ := fun hc => ha1 (ha2.trans hc)
        rw [if_neg hn, findRoom_cons_self hd _ n₂ ha2, findRoom_cons_self hd tl n₂ ha2]
      · rw [findRoom_cons_ne hd _ n₂ ha2, ih]
        by_cases hn : n₂ = n₁
        · rw [if_pos hn, if_pos hn, findRoom_cons_ne hd tl n₁ (fun hc => ha2 (hn ▸ hc))]
        · rw [if_neg hn, if_neg hn, findRoom_cons_ne hd tl n₂ ha2]

/-- Anything sendTo delivers is the given frame to the given id. -/
theorem sendTo_mem {st : ServerState} {cid : ℕ} {f : Frame} {p : ℕ × Frame}
    (h : p ∈ sendTo st cid f) : p = (cid, f) := by
  unfold sendTo at h
  split at h
  · simpa using h
  · simp at h

/-- Anything broadcastToViewers delivers is the info wrap of the
payload. -/
theorem broadcastToViewers_mem {st : ServerState} {rn : String} {pl : RawMsg}
    {ex : Option ℕ} {p : ℕ × Frame} (h : p ∈ broadcastToViewers st rn pl ex) :
    p.2 = Frame.info pl rn := by
  unfold broadcastToViewers at h
  obtain ⟨q, _, hq⟩ := List.mem_map.mp h
  rw [← hq]

/-- Anything broadcastPresence delivers is a presence frame for the
room. -/
theorem broadcastPresence_mem {st : ServerState} {rn : String} {p : ℕ × Frame}
    (h : p ∈ (broadcastPresence st rn).2) : ∃ a b, p.2 = Frame.presence rn a b := by
  unfold broadcastPresence at h
  rw [List.mem_flatten] at h
  obtain ⟨l, hl, hpl⟩ := h
  obtain ⟨sid, _, hsid⟩ := List.mem_map.mp hl
  rw [← hsid] at hpl
  have hp := sendTo_mem hpl
  exact ⟨_, _, by rw [hp]⟩

/-- lookupConn reads only the connection table. -/
theorem lookupConn_conns_eq {st1 st2 : ServerState} (cid : ℕ) (h : st1.conns = st2.conns) :
    lookupConn st1 cid = lookupConn st2 cid := by
  unfold lookupConn
  rw [h]

/-- Updating an existing key in a connection list makes find? return the
updated entry. -/
theorem find?_update_list (l : List (ℕ × Conn)) (cid : ℕ) (c : Conn)
    (h : (l.find? (fun p => p.1 = cid)).isSome = true) :
    (l.map (fun p => if p.1 = cid then (cid, c) else p)).find? (fun p => p.1 = cid) =
      some (cid, c) := by
  induction l with
  | nil => simp [List.find?] at h
  | cons hd tl ih =>
    by_cases hp : hd.1 = cid
    · rw [List.map_cons, if_pos hp, List.find?_cons_of_pos _ (by simp)]
    · rw [List.map_cons, if_neg hp, List.find?_cons_of_neg _ (by simpa using hp)]
      rw [List.find?_cons_of_neg _ (by simpa using hp)] at h
      exact ih h

/-- Updating an existing connection makes lookupConn return the new
record. -/
theorem lookupConn_updateConn_self {st : ServerState} {cid : ℕ} {c0 : Conn} (c : Conn)
    (h : lookupConn st cid = some c0) : lookupConn (updateConn st cid c) cid = some c := by
  unfold lookupConn at h ⊢
  unfold updateConn
  have hsome : (st.conns.find? (fun p => p.1 = cid)).isSome = true := by
    cases hf : st.conns.find? (fun p => p.1 = cid) with
    | none => rw [hf] at h; simp at h
    | some _ => rfl
  rw [find?_update_list st.conns cid c hsome]
  rfl

/-- The message handler emits only the frame kinds this server owns:
hello, presence, map sync, map ack, info wraps and midi relays. In
particular it never emits an ops frame, a probe summary or a map:empty
frame. -/
theorem handleMessage_frames_kindOk (st : ServerState) (cid : ℕ) (raw : Option RawMsg) :
    ∀ p ∈ (handleMessage st cid raw).2, kindOk p.2 = true := by
  intro p hp
  cases raw with
  | none => simp [handleMessage] at hp
  | some m =>
    cases hlk : lookupConn st cid with
    | none => simp [handleMessage, hlk] at hp
    | some ws =>
      simp only [handleMessage, hlk] at hp
      by_cases h1 : m.typ = "hello" ∧ jsTruthy m.role = true
      · rw [if_pos h1] at hp
        simp at hp
      · rw [if_neg h1] at hp
        by_cases h2 : m.typ = "join"
        · rw [if_pos h2] at hp
          simp only [List.mem_append] at hp
          rcases hp with (hp | hp) | hp
          · rw [(sendTo_mem hp)]
            rfl
          · obtain ⟨a, b, hab⟩ := broadcastPresence_mem hp
            rw [hab]
            rfl
          · split at hp
            · split at hp
              · rw [(sendTo_mem hp)]
                rfl
              · simp at hp
            · simp at hp
        · rw [if_neg h2] at hp
          by_cases h3 : m.typ = "ping"
          · rw [if_pos h3] at hp
            simp at hp
          · rw [if_neg h3] at hp
            by_cases h4 : ws.role = "host" ∧ m.typ = "map:set" ∧ m.map.isSome = true
            · rw [if_pos h4] at hp
              simp only [List.mem_append] at hp
              rcases hp with hp | hp
              · rw [broadcastToViewers_mem hp]
                rfl
              · rw [(sendTo_mem hp)]
                rfl
            · rw [if_neg h4] at hp
              by_cases h5 : m.typ = "map:get" ∧ ws.room ≠ ""
              · rw [if_pos h5] at hp
                split at hp
                · split at hp
                  · rw [(sendTo_mem hp)]
                    rfl
                  · simp at hp
                · simp at hp
              · rw [if_neg h5] at hp
                by_cases h6 : m.typ = "midi" ∧ ws.room ≠ ""
                · rw [if_pos h6] at hp
                  simp only at hp
                  obtain ⟨q, _, hq⟩ := List.mem_map.mp hp
                  rw [← hq]
                  rfl
                · rw [if_neg h6] at hp
                  by_cases h7 : ws.role = "host"
                  · rw [if_pos h7] at hp
                    rw [broadcastToViewers_mem hp]
                    rfl
                  · rw [if_neg h7] at hp
                    simp at hp

/-- The connection handler likewise emits only hello, presence and map
sync frames. -/
theorem handleConnection_frames_kindOk (st : ServerState) (cid : ℕ)
    (qRole qRoom : Option String) :
    ∀ p ∈ (handleConnection st cid qRole qRoom).2, kindOk p.2 = true := by
  intro p hp
  simp only [handleConnection, List.mem_append] at hp
  rcases hp with ((hp | hp) | hp) | hp
  · rw [(sendTo_mem hp)]
    rfl
  · rw [(sendTo_mem hp)]
    rfl
  · split at hp
    · split at hp
      · split at hp
        · rw [(sendTo_mem hp)]
          rfl
        · simp at hp
      · simp at hp
    · simp at hp
  · obtain ⟨a, b, hab⟩ := broadcastPresence_mem hp
    rw [hab]
    rfl

/-- Moving a connection between room sets never changes the stored map
of the target room: the stored map survives a join with its content
intact. -/
theorem joinMoveRooms_lastMap (rooms : List (String × Room)) (cid : ℕ)
    (fromRoom toRoom roleNew : String) (r : Room)
    (hfr : findRoom rooms toRoom = some r) :
    ∃ r2, findRoom (joinMoveRooms rooms cid fromRoom toRoom roleNew) toRoom = some r2 ∧
      r2.lastMap = r.lastMap := by
  simp only [joinMoveRooms]
  have h1 : findRoom (getRoomPair rooms fromRoom).1 toRoom = some r :=
    findRoom_getRoomPair_of_found fromRoom hfr
  have h2 : ∃ ra,
      findRoom (setRoomUpd (getRoomPair rooms fromRoom).1 fromRoom (fun r3 =>
        { r3 with hosts := natSetDel r3.hosts cid,
                  viewers := natSetDel r3.viewers cid })) toRoom = some ra ∧
      ra.lastMap = r.lastMap := by
    rw [findRoom_setRoomUpd]
    by_cases hft : toRoom = fromRoom
    · rw [if_pos hft]
      rw [hft] at h1
      rw [h1]
      exact ⟨_, rfl, rfl⟩
    · rw [if_neg hft]
      exact ⟨r, h1, rfl⟩
  obtain ⟨ra, hra, hralm⟩ := h2
  simp only [getRoomPair_of_found hra]
  rw [findRoom_setRoomUpd, if_pos rfl, hra]
  refine ⟨_, rfl, ?_⟩
  rw [← hralm]
  split <;> rfl

/-- A viewer connection of the right room that is open and not the
excluded sender receives the info wrap from broadcastToViewers. -/
theorem broadcastToViewers_mem_of (st : ServerState) (rn : String) (pl : RawMsg)
    (ex : Option ℕ) (vid : ℕ) (cv : Conn) (hv : lookupConn st vid = some cv)
    (hopen : cv.isOpen = true) (hroom : cv.room = rn) (hrole : cv.role = "viewer")
    (hex : some vid ≠ ex) :
    (vid, Frame.info pl rn) ∈ broadcastToViewers st rn pl ex := by
  unfold lookupConn at hv
  cases hf : st.conns.find? (fun p => p.1 = vid) with
  | none => rw [hf] at hv; simp at hv
  | some pr =>
    rw [hf] at hv
    have hpr2 : pr.2 = cv := by simpa using hv
    have hpr1 : pr.1 = vid := by simpa using List.find?_some hf
    have hmem : pr ∈ st.conns := List.mem_of_find?_eq_some hf
    unfold broadcastToViewers
    apply List.mem_map.mpr
    refine ⟨pr, List.mem_filter.mpr ⟨hmem, ?_⟩, ?_⟩
    · simp [hpr1, hpr2, hopen, hroom, hrole, hex]
    · rw [hpr1]

/-- C7: a frame whose payload fails to parse as JSON (the none case of
the parse step) is silently ignored on both sides: the server message
handler returns with the state untouched and sends nothing, and the
client message listener returns with the session state untouched, fires
no callback, applies no map and does not close the socket, so both
connections stay available for later frames. -/
theorem c7_malformed_frames_ignored :
    (∀ (st : ServerState) (cid : ℕ), handleMessage st cid none = (st, [])) ∧
    (∀ s : ClientState, clientOnMessage s none = (s, {}) ∧
      (clientOnMessage s none).2.closedSocket = false) := by
  refine ⟨fun st cid => rfl, fun s => ⟨rfl, rfl⟩⟩

/-- C8 counterexample: with a completely empty environment configuration
the allow-list is not empty (it contains the two hard-coded origins), so
a connection from an arbitrary origin is closed with the policy
violation code instead of being accepted; the claim says an empty
configured allow-list accepts every origin. The whole connection path
confirms the rejection happens before any processing: no state change,
no frames, not accepted. -/
theorem c8_counterexample :
    connectionGate {} (some "https://evil.example") = Gate.rejected1008 ∧
    wsConnection {} (some "https://evil.example") { conns := [], rooms := [] } 0 none none =
      ({ conns := [], rooms := [] }, [], false) := by
  refine ⟨by decide, by decide⟩

/-- C8 amended: the allow-list is never empty because two origins are
hard-coded into it, so the allow-all branch is unreachable; for every
configuration, a connection proceeds exactly when its origin header
(defaulted to the empty string when absent) is in the allow-list, and
otherwise the connection is closed at handshake with code 1008 before
any processing: no state change, no frames, not accepted. -/
theorem c8_allowlist_never_empty (cfg : EnvConfig) (origin : Option String)
    (st : ServerState) (cid : ℕ) (qRole qRoom : Option String) :
    HAS_ALLOWLIST cfg = true ∧
    0 < (ALLOWED_ORIGINS cfg).length ∧
    wsConnection cfg origin st cid qRole qRoom =
      (if (origin.getD "") ∈ ALLOWED_ORIGINS cfg then
        ((handleConnection st cid qRole qRoom).1, (handleConnection st cid qRole qRoom).2, true)
      else (st, [], false)) := by
  have h1 : HAS_ALLOWLIST cfg = true := by
    unfold HAS_ALLOWLIST HARDCODED_ALLOWED
    simp
  refine ⟨h1, ?_, ?_⟩
  · unfold ALLOWED_ORIGINS HARDCODED_ALLOWED
    simp
  · unfold wsConnection connectionGate
    rw [if_pos h1]
    by_cases hmem : (origin.getD "") ∈ ALLOWED_ORIGINS cfg
    · rw [if_pos hmem, if_pos hmem]
    · rw [if_neg hmem, if_neg hmem]

/-- C6 counterexample: a probe sent by a host in a room with zero
viewers yields no frame at all — in particular not the claimed single
probe:summary with count zero — and leaves the state untouched, so
nothing is pending and nothing is ever delivered later; the server has
no probe aggregation. -/
theorem c6_counterexample :
    (handleMessage
        (handleConnection { conns := [], rooms := [] } 0 (some "host") (some "A")).1 0
        (some { typ := "probe", id := some "p1" })).2 = [] ∧
    (handleMessage
        (handleConnection { conns := [], rooms := [] } 0 (some "host") (some "A")).1 0
        (some { typ := "probe", id := some "p1" })).1 =
      (handleConnection { conns := [], rooms := [] } 0 (some "host") (some "A")).1 := by
  refine ⟨by decide, by decide⟩

/-- C6 amended: the relay never emits a probe:summary frame on any
inbound message or connection: a probe from a host is merely relayed to
the viewers wrapped as an info frame, a probe:ack from a viewer is
ignored, and no collector or timer exists. -/
theorem c6_no_probe_summary (st : ServerState) (cid : ℕ) (raw : Option RawMsg)
    (qRole qRoom : Option String) :
    ((handleMessage st cid raw).2.all (fun p => !(isProbeSummaryF p.2))) = true ∧
    ((handleConnection st cid qRole qRoom).2.all (fun p => !(isProbeSummaryF p.2))) = true := by
  constructor
  · apply List.all_eq_true.mpr
    intro p hp
    have h := handleMessage_frames_kindOk st cid raw p hp
    revert h
    cases p.2 <;> simp [kindOk, isProbeSummaryF]
  · apply List.all_eq_true.mpr
    intro p hp
    have h := handleConnection_frames_kindOk st cid qRole qRoom p hp
    revert h
    cases p.2 <;> simp [kindOk, isProbeSummaryF]

/-- C10: a map:get from a connection of a room whose stored map is
absent or empty is a silent no-op: the server state is unchanged and no
frame at all is sent back (no map:empty, no empty map:sync); a map:sync
reply carrying exactly the stored entries is sent precisely when the
stored map is a non-empty array. -/
theorem c10_mapget_reply_iff_nonempty (st : ServerState) (cid : ℕ) (c : Conn) (r : Room)
    (hlk : lookupConn st cid = some c) (hopen : c.isOpen = true) (hroom : c.room ≠ "")
    (hfr : findRoom st.rooms c.room = some r) :
    (handleMessage st cid (some { typ := "map:get" })).1 = st ∧
    ((r.lastMap = none ∨ r.lastMap = some []) →
      (handleMessage st cid (some { typ := "map:get" })).2 = []) ∧
    (∀ l, r.lastMap = some l → l ≠ [] →
      (handleMessage st cid (some { typ := "map:get" })).2 = [(cid, Frame.mapSync l c.room)]) := by
  have hcompute : handleMessage st cid (some { typ := "map:get" }) =
      (match r.lastMap with
       | some l =>
         if 0 < l.length then (st, [(cid, Frame.mapSync l c.room)]) else (st, [])
       | none => (st, [])) := by
    have h4 : ¬(c.role = "host" ∧ ("map:get" : String) = "map:set" ∧
        (none : Option (List MapEntry)).isSome = true) := by
      rintro ⟨-, h, -⟩
      exact absurd h (by decide)
    simp only [handleMessage, hlk]
    rw [if_neg (by decide), if_neg (by decide), if_neg (by decide), if_neg h4,
      if_pos ⟨by simp, hroom⟩]
    simp only [getRoomPair_of_found hfr]
    have hlk2 : lookupConn { conns := st.conns, rooms := st.rooms } cid = some c := hlk
    cases hl : r.lastMap with
    | none => rfl
    | some l =>
      by_cases hlen : 0 < l.length
      · simp only [if_pos hlen, sendTo, connIsOpen, hlk2, hopen]
        rfl
      · simp only [if_neg hlen]
  refine ⟨?_, ?_, ?_⟩
  · rw [hcompute]
    cases r.lastMap with
    | none => rfl
    | some l =>
      by_cases hlen : 0 < l.length
      · simp only [if_pos hlen]
      · simp only [if_neg hlen]
  · intro hcase
    rw [hcompute]
    rcases hcase with hl | hl
    · rw [hl]
    · rw [hl]
      rfl
  · intro l hl hne
    rw [hcompute, hl]
    simp only [if_pos (List.length_pos.mpr hne)]

/-- Witness for C10 at a room holding one stored entry: the viewer that
asks receives exactly one map:sync with that entry. -/
theorem c10_witness :
    (handleMessage
        { conns := [(0, { role := "host", room := "A", isOpen := true }),
            (1, { role := "viewer", room := "A", isOpen := true })],
          rooms := [("A", { hosts := [0], viewers := [1], lastMap := some ["e1"] })] } 1
        (some { typ := "map:get" })).2 = [(1, Frame.mapSync ["e1"] "A")] := by
  exact (c10_mapget_reply_iff_nonempty
    { conns := [(0, { role := "host", room := "A", isOpen := true }),
        (1, { role := "viewer", room := "A", isOpen := true })],
      rooms := [("A", { hosts := [0], viewers := [1], lastMap := some ["e1"] })] } 1
    { role := "viewer", room := "A", isOpen := true }
    { hosts := [0], viewers := [1], lastMap := some ["e1"] }
    (by decide) rfl (by decide) (by decide)).2.2 ["e1"] rfl (by decide)

/-- If the left part finds nothing, find? continues in the right
part. -/
theorem find?_append_none {α : Type} (p : α → Bool) (l₁ l₂ : List α)
    (h : l₁.find? p = none) : (l₁ ++ l₂).find? p = l₂.find? p := by
  induction l₁ with
  | nil => simp
  | cons hd tl ih =>
    by_cases hp : p hd
    · rw [List.find?_cons_of_pos _ hp] at h
      simp at h
    · rw [List.find?_cons_of_neg _ hp] at h
      rw [List.cons_append, List.find?_cons_of_neg _ hp]
      exact ih h

/-- After getRoom, the requested room exists. -/
theorem findRoom_getRoomPair_self (rooms : List (String × Room)) (n : String) :
    ∃ rr, findRoom (getRoomPair rooms n).1 n = some rr := by
  unfold getRoomPair
  cases hf : findRoom rooms n with
  | some r => exact ⟨r, by simpa using hf⟩
  | none =>
    refine ⟨emptyRoom, ?_⟩
    unfold findRoom at hf ⊢
    cases hfind : rooms.find? (fun p => p.1 = n) with
    | some pr => rw [hfind] at hf; simp at hf
    | none =>
      rw [find?_append_none _ _ _ hfind]
      rw [List.find?_cons_of_pos _ (by simp)]
      rfl

/-- C1 counterexample, at the scenario named in the spec: in room A a
host applies the ops batch that lights pad_1, then a viewer connects and
joins. The viewer receives presence frames only — no frame of kind ops
at all, with or without a snapshot flag — because the relay holds no
derived state table: its room record carries only the membership sets
and the (here absent) stored map, and the host ops batch produced no
output in the viewer-less room. -/
theorem c1_counterexample :
    (let s1 := handleConnection { conns := [], rooms := [] } 0 (some "host") (some "A")
     let s2 := handleMessage s1.1 0
       (some { typ := "ops", ops := some [EngineOp.light "pad_1" true (some 1)] })
     let s3 := handleConnection s2.1 1 (some "viewer") (some "A")
     let s4 := handleMessage s3.1 1
       (some { typ := "join", role := some "viewer", room := some "A" })
     s2.2 = [] ∧
     (((s3.2 ++ s4.2).filter (fun p => decide (p.1 = 1))).all
       (fun p => !(isOpsF p.2))) = true ∧
     s4.1.rooms = [("A", { hosts := [0], viewers := [1], lastMap := none })]) := by
  decide

/-- C1 amended: a join never yields an ops snapshot — the relay emits no
ops frame on any message — and when the target room of the join holds a
non-empty stored map, the joining connection receives it back as a bare
map:sync replay. -/
theorem c1_join_replay_no_snapshot (st : ServerState) (cid : ℕ) (c : Conn) (m : RawMsg)
    (r : Room) (l : List MapEntry)
    (hlk : lookupConn st cid = some c) (hopen : c.isOpen = true) (htyp : m.typ = "join")
    (hfr : findRoom st.rooms (joinNextRoom c m) = some r)
    (hl : r.lastMap = some l) (hne : l ≠ []) :
    ((handleMessage st cid (some m)).2.all (fun p => !(isOpsF p.2))) = true ∧
    (cid, Frame.mapSync l (joinNextRoom c m)) ∈ (handleMessage st cid (some m)).2 := by
  constructor
  · apply List.all_eq_true.mpr
    intro p hp
    have h := handleMessage_frames_kindOk st cid (some m) p hp
    revert h
    cases p.2 <;> simp [kindOk, isOpsF]
  · have hnothello : ¬(m.typ = "hello" ∧ jsTruthy m.role = true) := by
      rintro ⟨hh, -⟩
      rw [htyp] at hh
      exact absurd hh (by decide)
    simp only [handleMessage, hlk]
    rw [if_neg hnothello, if_pos htyp]
    obtain ⟨r2, hr2, hr2lm⟩ := joinMoveRooms_lastMap st.rooms cid c.room (joinNextRoom c m)
      (if jsTruthy m.role then toLowerStr (m.role.getD "") else c.role) r hfr
    simp only [getRoomPair_of_found hr2, hr2lm, hl, if_pos (List.length_pos.mpr hne)]
    simp only [sendTo, connIsOpen, hopen]
    have hlk3 : lookupConn
        { conns := (updateConn st cid
            { role := if jsTruthy m.role then toLowerStr (m.role.getD "") else c.role,
              room := joinNextRoom c m, isOpen := true }).conns,
          rooms := joinMoveRooms st.rooms cid c.room (joinNextRoom c m)
            (if jsTruthy m.role then toLowerStr (m.role.getD "") else c.role) } cid =
        some { role := if jsTruthy m.role then toLowerStr (m.role.getD "") else c.role,
               room := joinNextRoom c m, isOpen := true } :=
      lookupConn_updateConn_self _ hlk
    simp [hlk3]

/-- Witness for C1 amended: a viewer joining room A, whose stored map
holds one entry, gets the map:sync replay and no ops frame. -/
theorem c1_witness :
    ((handleMessage
        { conns := [(1, { role := "viewer", room := "A", isOpen := true })],
          rooms := [("A", { hosts := [], viewers := [1], lastMap := some ["m1"] })] } 1
        (some { typ := "join", role := some "viewer", room := some "A" })).2.all
      (fun p => !(isOpsF p.2))) = true ∧
    (1, Frame.mapSync ["m1"] "A") ∈
      (handleMessage
        { conns := [(1, { role := "viewer", room := "A", isOpen := true })],
          rooms := [("A", { hosts := [], viewers := [1], lastMap := some ["m1"] })] } 1
        (some { typ := "join", role := some "viewer", room := some "A" })).2 := by
  exact c1_join_replay_no_snapshot
    { conns := [(1, { role := "viewer", room := "A", isOpen := true })],
      rooms := [("A", { hosts := [], viewers := [1], lastMap := some ["m1"] })] } 1
    { role := "viewer", room := "A", isOpen := true }
    { typ := "join", role := some "viewer", room := some "A" }
    { hosts := [], viewers := [1], lastMap := some ["m1"] } ["m1"]
    (by decide) rfl rfl (by decide) rfl (by decide)

/-- C3 counterexample: in room A with one host and one viewer, the host
sends map:set twice with byte-identical content; the second call again
broadcasts the (info-wrapped) map:sync to the viewer, so the claimed
only-once broadcast via content-hash change detection does not hold —
the handler computes no hash and stores and re-broadcasts
unconditionally. -/
theorem c3_counterexample :
    (let t0 := handleConnection { conns := [], rooms := [] } 0 (some "host") (some "A")
     let t1 := handleConnection t0.1 1 (some "viewer") (some "A")
     let t2 := handleMessage t1.1 0 (some { typ := "map:set", map := some ["e1"] })
     let t3 := handleMessage t2.1 0 (some { typ := "map:set", map := some ["e1"] })
     (1, Frame.info { typ := "map:sync", map := some ["e1"], room := some "A" } "A") ∈ t2.2 ∧
     (1, Frame.info { typ := "map:sync", map := some ["e1"], room := some "A" } "A") ∈ t3.2) := by
  decide

/-- One map:set call from a host: the other open viewer of the room
receives the info-wrapped map:sync, the host receives a map:ack, the
connection table is untouched and the room now stores the map. -/
theorem mapset_call (st : ServerState) (hostId viewerId : ℕ) (ch cv : Conn)
    (arr : List MapEntry)
    (hh : lookupConn st hostId = some ch) (hrole : ch.role = "host")
    (hhopen : ch.isOpen = true)
    (hv : lookupConn st viewerId = some cv) (hvrole : cv.role = "viewer")
    (hvopen : cv.isOpen = true) (hvroom : cv.room = ch.room) (hne : viewerId ≠ hostId) :
    (viewerId, Frame.info { typ := "map:sync", map := some arr, room := some ch.room }
        ch.room) ∈
      (handleMessage st hostId (some { typ := "map:set", map := some arr })).2 ∧
    (∃ n, (hostId, Frame.mapAck ch.room n) ∈
      (handleMessage st hostId (some { typ := "map:set", map := some arr })).2) ∧
    (handleMessage st hostId (some { typ := "map:set", map := some arr })).1.conns =
      st.conns ∧
    (∃ rr, findRoom
        (handleMessage st hostId (some { typ := "map:set", map := some arr })).1.rooms
        ch.room = some rr ∧ rr.lastMap = some arr) := by
  have hcompute : handleMessage st hostId (some { typ := "map:set", map := some arr }) =
      (let rooms2 := setRoomUpd (getRoomPair st.rooms ch.room).1 ch.room
        (fun r => { r with lastMap := some arr })
       let st2 : ServerState := { st with rooms := rooms2 }
       let r := (getRoomPair st2.rooms ch.room).2
       (st2, broadcastToViewers st2 ch.room
          { typ := "map:sync", map := some arr, room := some ch.room } (some hostId) ++
        sendTo st2 hostId (Frame.mapAck ch.room r.viewers.length))) := by
    simp only [handleMessage, hh]
    rw [if_neg (by decide), if_neg (by decide), if_neg (by decide),
      if_pos (by exact ⟨hrole, by simp⟩)]
    rfl
  rw [hcompute]
  refine ⟨?_, ?_, rfl, ?_⟩
  · apply List.mem_append_left
    apply broadcastToViewers_mem_of _ _ _ _ _ cv hv hvopen hvroom hvrole
    intro hc
    exact hne (by simpa using hc)
  · refine ⟨((getRoomPair (setRoomUpd (getRoomPair st.rooms ch.room).1 ch.room
      (fun r => { r with lastMap := some arr })) ch.room).2).viewers.length, ?_⟩
    apply List.mem_append_right
    have hopen2 : connIsOpen
        { conns := st.conns,
          rooms := setRoomUpd (getRoomPair st.rooms ch.room).1 ch.room
            (fun r => { r with lastMap := some arr }) } hostId = true := by
      unfold connIsOpen
      rw [show lookupConn
        { conns := st.conns,
          rooms := setRoomUpd (getRoomPair st.rooms ch.room).1 ch.room
            (fun r => { r with lastMap := some arr }) } hostId = some ch from hh]
      exact hhopen
    simp [sendTo, hopen2]
  · obtain ⟨rr1, hrr1⟩ := findRoom_getRoomPair_self st.rooms ch.room
    refine ⟨{ rr1 with lastMap := some arr }, ?_, rfl⟩
    show findRoom (setRoomUpd (getRoomPair st.rooms ch.room).1 ch.room
      (fun r => { r with lastMap := some arr })) ch.room =
      some { rr1 with lastMap := some arr }
    rw [findRoom_setRoomUpd, if_pos rfl, hrr1]
    rfl

/-- C3 amended: there is no content-hash change detection: every
map:set from a host with an array payload stores the map and
re-broadcasts it to the other viewers of the room (wrapped in an info
envelope), so sending byte-identical content twice broadcasts twice;
each call additionally acks the host with the room viewer count. -/
theorem c3_mapset_rebroadcasts_identical (st : ServerState) (hostId viewerId : ℕ)
    (ch cv : Conn) (arr : List MapEntry)
    (hh : lookupConn st hostId = some ch) (hrole : ch.role = "host")
    (hhopen : ch.isOpen = true)
    (hv : lookupConn st viewerId = some cv) (hvrole : cv.role = "viewer")
    (hvopen : cv.isOpen = true) (hvroom : cv.room = ch.room) (hne : viewerId ≠ hostId) :
    (viewerId, Frame.info { typ := "map:sync", map := some arr, room := some ch.room }
        ch.room) ∈
      (handleMessage st hostId (some { typ := "map:set", map := some arr })).2 ∧
    (viewerId, Frame.info { typ := "map:sync", map := some arr, room := some ch.room }
        ch.room) ∈
      (handleMessage (handleMessage st hostId
          (some { typ := "map:set", map := some arr })).1 hostId
        (some { typ := "map:set", map := some arr })).2 ∧
    (∃ n, (hostId, Frame.mapAck ch.room n) ∈
      (handleMessage (handleMessage st hostId
          (some { typ := "map:set", map := some arr })).1 hostId
        (some { typ := "map:set", map := some arr })).2) ∧
    (∃ rr, findRoom (handleMessage (handleMessage st hostId
          (some { typ := "map:set", map := some arr })).1 hostId
        (some { typ := "map:set", map := some arr })).1.rooms ch.room = some rr ∧
      rr.lastMap = some arr) := by
  have h1 := mapset_call st hostId viewerId ch cv arr hh hrole hhopen hv hvrole hvopen
    hvroom hne
  have hconns := h1.2.2.1
  have hh2 : lookupConn (handleMessage st hostId
      (some { typ := "map:set", map := some arr })).1 hostId = some ch := by
    rw [lookupConn_conns_eq hostId hconns]
    exact hh
  have hv2 : lookupConn (handleMessage st hostId
      (some { typ := "map:set", map := some arr })).1 viewerId = some cv := by
    rw [lookupConn_conns_eq viewerId hconns]
    exact hv
  have h2 := mapset_call _ hostId viewerId ch cv arr hh2 hrole hhopen hv2 hvrole hvopen
    hvroom hne
  exact ⟨h1.1, h2.1, h2.2.1, h2.2.2.2⟩

/-- Witness for C3 amended at a concrete room with one host and one
viewer. -/
theorem c3_witness :
    (1, Frame.info { typ := "map:sync", map := some ["e1"], room := some "A" } "A") ∈
      (handleMessage (handleMessage
          { conns := [(0, { role := "host", room := "A", isOpen := true }),
              (1, { role := "viewer", room := "A", isOpen := true })],
            rooms := [("A", { hosts := [0], viewers := [1], lastMap := none })] } 0
          (some { typ := "map:set", map := some ["e1"] })).1 0
        (some { typ := "map:set", map := some ["e1"] })).2 := by
  exact (c3_mapset_rebroadcasts_identical
    { conns := [(0, { role := "host", room := "A", isOpen := true }),
        (1, { role := "viewer", room := "A", isOpen := true })],
      rooms := [("A", { hosts := [0], viewers := [1], lastMap := none })] } 0 1
    { role := "host", room := "A", isOpen := true }
    { role := "viewer", room := "A", isOpen := true } ["e1"]
    (by decide) rfl rfl (by decide) rfl rfl rfl (by decide)).2.1

end DDJ
